import Mathlib

/-!
Shallow embedding of the ultrasonic ranging control loop
(`src/code/src/main.rs`) and of its HC-SR04 ranging driver.

Distances are modelled as rationals: every `f64` constant appearing in the
code (`-1.0`, `0.0`, `50.0`, `35.0`, `20.0`) is exactly representable in
binary floating point, and `f64` comparison on such values agrees with the
comparison of the corresponding rationals, so the threshold logic embeds
faithfully into `ℚ`.
-/

/-- The result of one successful ranging cycle (spec §3 `Measurement`;
the value bound by `Ok(unit)` in `main.rs`, read as `unit.centimeters`). -/
structure Measurement where
  centimeters : ℚ
deriving DecidableEq, Repr

/-- Error taxonomy of the driver (spec §3 / §7). -/
inductive ErrorKind where
  | NoEcho
  | EchoTimeout
  | InvalidReading
  | InitFailure
deriving DecidableEq, Repr

/-- Tagged result of one `measure` invocation (spec §3 `RangingOutcome`;
the `Result` matched at `main.rs:104`). -/
inductive RangingOutcome where
  | ok (m : Measurement)
  | err (e : ErrorKind)
deriving DecidableEq, Repr

/-- Whether an outcome is a failure. -/
def RangingOutcome.isErr : RangingOutcome → Bool
  | .ok _ => false
  | .err _ => true

/-- The PWM wrap value: `config_pwm.top = 0xFFFF` (`main.rs:89`). -/
def PWM_TOP : ℕ := 0xFFFF

/-- The `unit` variable computed at `main.rs:104`..`107`:
`Ok(unit) => unit.centimeters, Err(_) => -1.0`. -/
def unitOf : RangingOutcome → ℚ
  | .ok m => m.centimeters
  | .err _ => -1

/-- Observable commands a cycle issues to its collaborators, in program
order: the inter-cycle delay (`main.rs:100`), LED level writes
(`main.rs:119`/`121`), the PWM configuration application (`main.rs:130`),
servo line writes and pulse/settle delays (`main.rs:132`..`167`), and the
log/display of the distance (`main.rs:175`..`179`). -/
inductive Event where
  | interCycleDelayMs (ms : ℕ)
  | ledHigh
  | ledLow
  | pwmSetConfig (compareB : ℕ) (top : ℕ)
  | sgHigh (line : ℕ)
  | sgLow (line : ℕ)
  | waitMs (ms : ℕ)
  | logError
  | logDistance (d : ℚ)
  | displayDistance (d : ℚ)
deriving DecidableEq, Repr

/-- The servo drive sequence of one successful cycle (`main.rs:132`..`167`):
near branch (`unit <= 20.0`): `sg90_1` high for 2 ms then low, 10 ms settle,
then `sg90_2` high for 1 ms then low, 10 ms settle; far branch: the same
shape with the two pulse durations swapped. -/
def servoSeq (near : Bool) : List Event :=
  if near then
    [Event.sgHigh 1, Event.waitMs 2, Event.sgLow 1, Event.waitMs 10,
     Event.sgHigh 2, Event.waitMs 1, Event.sgLow 2, Event.waitMs 10]
  else
    [Event.sgHigh 1, Event.waitMs 1, Event.sgLow 1, Event.waitMs 10,
     Event.sgHigh 2, Event.waitMs 2, Event.sgLow 2, Event.waitMs 10]

/-- State of the actuator output lines and the PWM configuration across
cycles: the LED line (`main.rs:85`), the `config_pwm.compare_b` field
(`main.rs:90`), the compare value applied to the buzzer PWM slice
(`main.rs:93`/`130`), and the two servo lines (`main.rs:95`..`96`). -/
structure ActuatorState where
  led : Bool
  configCompareB : ℕ
  buzzerCompareB : ℕ
  sg1 : Bool
  sg2 : Bool
deriving DecidableEq, Repr

/-- The state at loop entry (`main.rs:85`..`96`): LED low, PWM compare 0,
both servo lines low. -/
def initialState : ActuatorState :=
  { led := false, configCompareB := 0, buzzerCompareB := 0,
    sg1 := false, sg2 := false }

/-- One iteration of the main loop (`main.rs:99`..`180`): delay, measure,
map the outcome to `unit`, and either skip on `unit < 0.0` (log only,
`main.rs:110`..`113`) or run the three threshold comparisons and drive the
actuators, then log and display the distance. -/
def cycleStep (s : ActuatorState) (o : RangingOutcome) :
    ActuatorState × List Event :=
  let unit : ℚ := unitOf o
  if unit < 0 then
    (s, [Event.interCycleDelayMs 200, Event.logError])
  else
    let ledHigh : Bool := decide (unit ≤ 50)
    let compareB : ℕ := if unit ≤ 35 then PWM_TOP / 2 else 0
    let near : Bool := decide (unit ≤ 20)
    ({ led := ledHigh, configCompareB := compareB, buzzerCompareB := compareB,
       sg1 := false, sg2 := false },
     Event.interCycleDelayMs 200
       :: (if ledHigh then Event.ledHigh else Event.ledLow)
       :: Event.pwmSetConfig compareB PWM_TOP
       :: (servoSeq near ++ [Event.logDistance unit, Event.displayDistance unit]))

/-- Iterated loop: runs one cycle per outcome in the list, threading the
actuator state and collecting each cycle's command trace. -/
def runCyclesTrace (s : ActuatorState) :
    List RangingOutcome → ActuatorState × List (List Event)
  | [] => (s, [])
  | o :: rest =>
    let p := cycleStep s o
    let q := runCyclesTrace p.1 rest
    (q.1, p.2 :: q.2)

/-- Whether an event is part of the servo drive (a servo line write or a
pulse/settle delay inside the servo block, `main.rs:132`..`167`). -/
def isServoEvent : Event → Bool
  | .sgHigh _ => true
  | .sgLow _ => true
  | .waitMs _ => true
  | _ => false

/-- Extracts the assert pulses from a drive trace: each `sgHigh l` followed
by a delay of `d` ms and then `sgLow` yields the pulse `(l, d)`. -/
def pulsesOf : List Event → List (ℕ × ℕ)
  | Event.sgHigh l :: Event.waitMs d :: Event.sgLow _ :: rest =>
      (l, d) :: pulsesOf rest
  | _ :: rest => pulsesOf rest
  | [] => []

/-- Helper: a run made only of failure outcomes leaves the actuator state
untouched. -/
theorem runCyclesTrace_state_const (s : ActuatorState)
    (outs : List RangingOutcome) (hall : ∀ o ∈ outs, o.isErr = true) :
    (runCyclesTrace s outs).1 = s := by
  induction outs generalizing s with
  | nil => rfl
  | cons o rest ih =>
    have ho := hall o (List.mem_cons_self o rest)
    rcases o with m | e
    · simp [RangingOutcome.isErr] at ho
    · have hstep : cycleStep s (RangingOutcome.err e)
          = (s, [Event.interCycleDelayMs 200, Event.logError]) := by
        norm_num [cycleStep, unitOf]
      simp only [runCyclesTrace, hstep]
      exact ih s (fun o ho' => hall o (List.mem_cons_of_mem _ ho'))

/-- Helper: the servo portion of a successful cycle's trace is exactly the
drive sequence selected by the 20 cm threshold. -/
theorem filter_servo_cycle (s : ActuatorState) (m : Measurement)
    (h : 0 ≤ m.centimeters) :
    List.filter isServoEvent (cycleStep s (RangingOutcome.ok m)).2 =
      servoSeq (decide (m.centimeters ≤ 20)) := by
  simp only [cycleStep, unitOf]
  rw [if_neg (not_lt.mpr h)]
  rcases Decidable.em (m.centimeters ≤ 50) with h50 | h50 <;>
    rcases Decidable.em (m.centimeters ≤ 20) with h20 | h20 <;>
    simp [servoSeq, isServoEvent, h50, h20]

/-- C1: in every successful cycle with a non-negative distance `d`, the LED
is driven high exactly when `d ≤ 50.0` (non-strict comparison,
`main.rs:118`). -/
theorem led_assert_iff_le_50 (s : ActuatorState) (m : Measurement)
    (h : 0 ≤ m.centimeters) :
    (cycleStep s (RangingOutcome.ok m)).1.led = true ↔ m.centimeters ≤ 50 := by
  simp only [cycleStep, unitOf]
  rw [if_neg (not_lt.mpr h)]
  simp

/-- Witness for C1: at distance 50.0 the LED is asserted, at 60.0 it is not. -/
theorem led_assert_iff_le_50_w :
    ((cycleStep initialState (RangingOutcome.ok ⟨50⟩)).1.led = true ↔ (50:ℚ) ≤ 50) ∧
    ((cycleStep initialState (RangingOutcome.ok ⟨60⟩)).1.led = true ↔ (60:ℚ) ≤ 50) ∧
    (cycleStep initialState (RangingOutcome.ok ⟨50⟩)).1.led = true ∧
    (cycleStep initialState (RangingOutcome.ok ⟨60⟩)).1.led = false := by
  refine ⟨led_assert_iff_le_50 initialState ⟨50⟩ (by norm_num),
          led_assert_iff_le_50 initialState ⟨60⟩ (by norm_num), ?_, ?_⟩
  · exact (led_assert_iff_le_50 initialState ⟨50⟩ (by norm_num)).mpr (by norm_num)
  · have h := led_assert_iff_le_50 initialState ⟨60⟩ (by norm_num)
    by_contra hc
    exact absurd (h.mp (by simpa using Bool.of_not_eq_false hc)) (by norm_num)

/-- C2: in every successful cycle with a non-negative distance `d`, the
compare value applied to the buzzer PWM is `top / 2` (50% duty) exactly
when `d ≤ 35.0`, and `0` (silent) otherwise (`main.rs:124`..`130`). -/
theorem buzzer_duty_iff_le_35 (s : ActuatorState) (m : Measurement)
    (h : 0 ≤ m.centimeters) :
    ((cycleStep s (RangingOutcome.ok m)).1.buzzerCompareB = PWM_TOP / 2 ↔
      m.centimeters ≤ 35) ∧
    ((cycleStep s (RangingOutcome.ok m)).1.buzzerCompareB = 0 ↔
      ¬ m.centimeters ≤ 35) := by
  simp only [cycleStep, unitOf]
  rw [if_neg (not_lt.mpr h)]
  rcases Decidable.em (m.centimeters ≤ 35) with h35 | h35 <;>
    simp [h35, PWM_TOP]

/-- Witness for C2: at distance 35.0 the buzzer duty compare is `top / 2`
(tone active), at 40.0 it is `0` (silent). -/
theorem buzzer_duty_iff_le_35_w :
    ((cycleStep initialState (RangingOutcome.ok ⟨35⟩)).1.buzzerCompareB = PWM_TOP / 2 ↔
      (35:ℚ) ≤ 35) ∧
    ((cycleStep initialState (RangingOutcome.ok ⟨40⟩)).1.buzzerCompareB = 0 ↔
      ¬ (40:ℚ) ≤ 35) ∧
    (cycleStep initialState (RangingOutcome.ok ⟨35⟩)).1.buzzerCompareB = 32767 ∧
    (cycleStep initialState (RangingOutcome.ok ⟨40⟩)).1.buzzerCompareB = 0 := by
  refine ⟨(buzzer_duty_iff_le_35 initialState ⟨35⟩ (by norm_num)).1,
          (buzzer_duty_iff_le_35 initialState ⟨40⟩ (by norm_num)).2, ?_, ?_⟩
  · have h := (buzzer_duty_iff_le_35 initialState ⟨35⟩ (by norm_num)).1.mpr (by norm_num)
    simpa [PWM_TOP] using h
  · exact (buzzer_duty_iff_le_35 initialState ⟨40⟩ (by norm_num)).2.mpr (by norm_num)

/-- C3: in every successful cycle with a non-negative distance `d`, the
servo portion of the cycle trace is the near drive sequence exactly when
`d ≤ 20.0` and the far sequence otherwise, and the two sequences give the
two actuators complementary pulse durations (near: 2 ms on line 1 and 1 ms
on line 2; far: the swapped assignment) (`main.rs:132`..`167`). -/
theorem servo_near_iff_le_20 (s : ActuatorState) (m : Measurement)
    (h : 0 ≤ m.centimeters) :
    (List.filter isServoEvent (cycleStep s (RangingOutcome.ok m)).2 =
        servoSeq true ↔ m.centimeters ≤ 20) ∧
    (List.filter isServoEvent (cycleStep s (RangingOutcome.ok m)).2 =
        servoSeq false ↔ ¬ m.centimeters ≤ 20) ∧
    pulsesOf (servoSeq true) = [(1, 2), (2, 1)] ∧
    pulsesOf (servoSeq false) = [(1, 1), (2, 2)] := by
  have key := filter_servo_cycle s m h
  refine ⟨?_, ?_, by decide, by decide⟩
  · rw [key]
    rcases Decidable.em (m.centimeters ≤ 20) with h20 | h20 <;>
      simp [h20, servoSeq]
  · rw [key]
    rcases Decidable.em (m.centimeters ≤ 20) with h20 | h20 <;>
      simp [h20, servoSeq]

/-- Witness for C3: at distance 20.0 the near sequence is driven, at 30.0
the far sequence. -/
theorem servo_near_iff_le_20_w :
    (List.filter isServoEvent (cycleStep initialState (RangingOutcome.ok ⟨20⟩)).2 =
        servoSeq true ↔ (20:ℚ) ≤ 20) ∧
    (List.filter isServoEvent (cycleStep initialState (RangingOutcome.ok ⟨30⟩)).2 =
        servoSeq false ↔ ¬ (30:ℚ) ≤ 20) ∧
    pulsesOf (servoSeq true) = [(1, 2), (2, 1)] ∧
    pulsesOf (servoSeq false) = [(1, 1), (2, 2)] :=
  ⟨(servo_near_iff_le_20 initialState ⟨20⟩ (by norm_num)).1,
   (servo_near_iff_le_20 initialState ⟨30⟩ (by norm_num)).2.1,
   (servo_near_iff_le_20 initialState ⟨20⟩ (by norm_num)).2.2.1,
   (servo_near_iff_le_20 initialState ⟨20⟩ (by norm_num)).2.2.2⟩

/-- C4: a failure cycle performs no actuation: the cycle only logs, the LED
line, the PWM configuration (both the stored and the applied compare value)
and both servo lines are exactly the previous cycle's; and any run of
consecutive failure cycles leaves the whole actuator state unchanged
(`main.rs:102`..`113`). -/
theorem failure_frame (s : ActuatorState) (e : ErrorKind)
    (outs : List RangingOutcome) (hall : ∀ o ∈ outs, o.isErr = true) :
    cycleStep s (RangingOutcome.err e)
      = (s, [Event.interCycleDelayMs 200, Event.logError]) ∧
    (runCyclesTrace s outs).1 = s := by
  constructor
  · norm_num [cycleStep, unitOf]
  · exact runCyclesTrace_state_const s outs hall

/-- Witness for C4: two consecutive failure cycles starting from the
initial state log only and leave the state at its initial value. -/
theorem failure_frame_w :
    (∀ o ∈ [RangingOutcome.err ErrorKind.NoEcho,
            RangingOutcome.err ErrorKind.EchoTimeout], o.isErr = true) ∧
    cycleStep initialState (RangingOutcome.err ErrorKind.NoEcho)
      = (initialState, [Event.interCycleDelayMs 200, Event.logError]) ∧
    (runCyclesTrace initialState
        [RangingOutcome.err ErrorKind.NoEcho,
         RangingOutcome.err ErrorKind.EchoTimeout]).1 = initialState :=
  ⟨by decide,
   (failure_frame initialState ErrorKind.NoEcho
      [RangingOutcome.err ErrorKind.NoEcho,
       RangingOutcome.err ErrorKind.EchoTimeout] (by decide)).1,
   (failure_frame initialState ErrorKind.NoEcho
      [RangingOutcome.err ErrorKind.NoEcho,
       RangingOutcome.err ErrorKind.EchoTimeout] (by decide)).2⟩

/-- C5 counterexample: the control loop does represent a failure as a
negative sentinel distance: the match at `main.rs:104`..`107` maps every
`Err` outcome to the sentinel `-1.0`, so the claim that a failure is never
represented as a negative or sentinel distance value is false at the
concrete input `err NoEcho`. -/
theorem failure_sentinel_counterexample :
    unitOf (RangingOutcome.err ErrorKind.NoEcho) = -1 ∧
    unitOf (RangingOutcome.err ErrorKind.NoEcho) < 0 := by
  constructor <;> norm_num [unitOf]

/-- C5 (amended): `measure`'s failure reaches the loop as a tagged `Err`
outcome; the loop internally re-encodes it as the sentinel distance `-1.0`,
but the `unit < 0.0` guard (`main.rs:110`) ensures the threshold decision
logic runs exactly when the outcome is a successful measurement with a
non-negative distance — no negative value standing in for a failure is ever
compared against a threshold. -/
theorem failure_guard_amended (s : ActuatorState) (o : RangingOutcome) :
    (cycleStep s o).2 ≠ [Event.interCycleDelayMs 200, Event.logError] ↔
      ∃ m, o = RangingOutcome.ok m ∧ 0 ≤ m.centimeters := by
  rcases o with m | e
  · by_cases h : 0 ≤ m.centimeters
    · refine ⟨fun _ => ⟨m, rfl, h⟩, fun _ => ?_⟩
      simp only [cycleStep, unitOf]
      rw [if_neg (not_lt.mpr h)]
      rcases Decidable.em (m.centimeters ≤ 50) with h50 | h50 <;>
        simp [h50, servoSeq]
    · push_neg at h
      simp only [cycleStep, unitOf]
      rw [if_pos h]
      simp only [ne_eq, not_true_eq_false, false_iff, not_exists]
      rintro m' ⟨hm, hge⟩
      cases hm
      exact absurd hge (not_le.mpr h)
  · simp only [cycleStep, unitOf]
    norm_num
    intro x hx
    cases hx

/-- C6: the actuator commands a successful cycle emits are a function of
the fresh distance alone: whatever the prior actuator states and whatever
the outcomes of any earlier cycles, two successful cycles with the same
measurement issue the identical command trace (`main.rs:99`..`180`). -/
theorem cycle_commands_deterministic (s1 s2 : ActuatorState)
    (h1 h2 : List RangingOutcome) (m : Measurement) :
    (cycleStep (runCyclesTrace s1 h1).1 (RangingOutcome.ok m)).2 =
      (cycleStep (runCyclesTrace s2 h2).1 (RangingOutcome.ok m)).2 := by
  by_cases h : unitOf (RangingOutcome.ok m) < 0 <;>
    simp only [cycleStep] <;>
    [rw [if_pos h, if_pos h]; rw [if_neg h, if_neg h]]

namespace HCSR04

/-- Modelled from the spec: the `hc_sr04` module (declared at `main.rs:5`,
used at `main.rs:79` and `main.rs:104`) is not among the provided source
files, so the driver's timing parameters are modelled from spec §4.1: a
bounded startup timeout for the echo-start wait (step 2), a maximum
pulse-width timeout for the echo-end wait (step 3), and the sensor's rated
maximum range used by the plausibility check (step 6). All durations are
in microseconds, the range in centimeters. -/
structure DriverParams where
  startupTimeoutUs : ℚ
  pulseTimeoutUs : ℚ
  maxRangeCm : ℚ
deriving DecidableEq, Repr

/-- Modelled from the spec: the observable behavior of the echo line during
one `measure` call — when (if ever) it rises after the trigger pulse, and
how long (if ever) it then stays high. `none` models a transition that
never occurs. -/
structure EchoSignal where
  startDelayUs : Option ℚ
  pulseWidthUs : Option ℚ
deriving DecidableEq, Repr

/-- Modelled from the spec: the standard approximation of the speed of
sound in air, 0.0343 cm/µs (spec §4.1 step 5). -/
def speed_of_sound_cm_per_us : ℚ := 343 / 10000

/-- Modelled from the spec: the trigger pulse width, ≥ 10 µs
(spec §4.1 step 1). -/
def triggerPulseUs : ℚ := 10

/-- Modelled from the spec: the round-trip conversion of spec §4.1 step 5,
`distance_cm = (speed_of_sound_cm_per_us * dt_us) / 2`. -/
def distance_cm (dtUs : ℚ) : ℚ := speed_of_sound_cm_per_us * dtUs / 2

/-- Modelled from the spec: one complete `measure` call (spec §4.1 steps
1–7) together with the time it consumes: fire the trigger pulse; wait for
echo start but no longer than the startup timeout (else `NoEcho`); wait for
echo end but no longer than the pulse-width timeout (else `EchoTimeout`);
convert the pulse width to a distance; reject non-positive or out-of-range
results as `InvalidReading`; otherwise return the `Measurement`. -/
def measureTimed (p : DriverParams) (e : EchoSignal) : RangingOutcome × ℚ :=
  match e.startDelayUs with
  | none =>
    (RangingOutcome.err ErrorKind.NoEcho, triggerPulseUs + p.startupTimeoutUs)
  | some sd =>
    if p.startupTimeoutUs < sd then
      (RangingOutcome.err ErrorKind.NoEcho, triggerPulseUs + p.startupTimeoutUs)
    else
      match e.pulseWidthUs with
      | none =>
        (RangingOutcome.err ErrorKind.EchoTimeout,
         triggerPulseUs + sd + p.pulseTimeoutUs)
      | some dt =>
        if p.pulseTimeoutUs < dt then
          (RangingOutcome.err ErrorKind.EchoTimeout,
           triggerPulseUs + sd + p.pulseTimeoutUs)
        else
          if distance_cm dt ≤ 0 ∨ p.maxRangeCm < distance_cm dt then
            (RangingOutcome.err ErrorKind.InvalidReading,
             triggerPulseUs + sd + dt)
          else
            (RangingOutcome.ok ⟨distance_cm dt⟩, triggerPulseUs + sd + dt)

/-- Modelled from the spec: the outcome of one `measure` call
(spec §4.1 `measure() → RangingOutcome`). -/
def measure (p : DriverParams) (e : EchoSignal) : RangingOutcome :=
  (measureTimed p e).1

end HCSR04

/-- C7: for every echo pulse duration `dt` inside the valid pulse-width
range (echo start within the startup window, `0 < dt` within the
pulse-width timeout, resulting distance within the rated range), `measure`
returns the distance `(0.0343 * dt) / 2` exactly, hence in particular
within 0.5% of that reference value. -/
theorem distance_formula (p : HCSR04.DriverParams) (sd dt : ℚ)
    (hsd : sd ≤ p.startupTimeoutUs)
    (hdt0 : 0 < dt) (hdt : dt ≤ p.pulseTimeoutUs)
    (hmax : HCSR04.distance_cm dt ≤ p.maxRangeCm) :
    HCSR04.measure p ⟨some sd, some dt⟩
      = RangingOutcome.ok ⟨0.0343 * dt / 2⟩ ∧
    |HCSR04.distance_cm dt - 0.0343 * dt / 2| ≤ 5 / 1000 * (0.0343 * dt / 2) := by
  have hval : HCSR04.distance_cm dt = 0.0343 * dt / 2 := by
    norm_num [HCSR04.distance_cm, HCSR04.speed_of_sound_cm_per_us]
  have hpos : 0 < HCSR04.distance_cm dt := by
    rw [hval]; positivity
  constructor
  · simp only [HCSR04.measure, HCSR04.measureTimed]
    rw [if_neg (not_lt.mpr hsd), if_neg (not_lt.mpr hdt),
        if_neg (by push_neg; exact ⟨hpos, hmax⟩)]
    rw [hval]
  · rw [hval, sub_self, abs_zero]
    positivity

/-- Witness for C7: startup timeout 30 ms, pulse timeout 25 ms, rated range
400 cm; echo starts after 100 µs and stays high 1000 µs, giving 17.15 cm. -/
theorem distance_formula_w :
    (100:ℚ) ≤ 30000 ∧ (0:ℚ) < 1000 ∧ (1000:ℚ) ≤ 25000 ∧
    HCSR04.distance_cm 1000 ≤ 400 ∧
    HCSR04.measure ⟨30000, 25000, 400⟩ ⟨some 100, some 1000⟩
      = RangingOutcome.ok ⟨0.0343 * 1000 / 2⟩ := by
  refine ⟨by norm_num, by norm_num, by norm_num, ?_, ?_⟩
  · norm_num [HCSR04.distance_cm, HCSR04.speed_of_sound_cm_per_us]
  · exact (distance_formula ⟨30000, 25000, 400⟩ 100 1000 (by norm_num)
      (by norm_num) (by norm_num)
      (by norm_num [HCSR04.distance_cm, HCSR04.speed_of_sound_cm_per_us])).1

/-- C8: if the echo line never rises, or rises only after the startup
timeout, `measure` returns `NoEcho`, consumes no more time than the trigger
pulse plus the startup timeout (it never blocks past the bound), and never
returns a Measurement. -/
theorem no_echo_timeout (p : HCSR04.DriverParams) (e : HCSR04.EchoSignal)
    (h : e.startDelayUs = none ∨
         ∃ sd, e.startDelayUs = some sd ∧ p.startupTimeoutUs < sd) :
    (HCSR04.measureTimed p e).1 = RangingOutcome.err ErrorKind.NoEcho ∧
    (HCSR04.measureTimed p e).2 ≤ HCSR04.triggerPulseUs + p.startupTimeoutUs ∧
    ∀ m, (HCSR04.measureTimed p e).1 ≠ RangingOutcome.ok m := by
  obtain ⟨sdOpt, pwOpt⟩ := e
  rcases h with h | ⟨sd, hsd, hlt⟩
  · simp only at h
    subst h
    refine ⟨rfl, le_refl _, ?_⟩
    intro m hm
    cases hm
  · simp only at hsd
    subst hsd
    simp only [HCSR04.measureTimed]
    rw [if_pos hlt]
    refine ⟨rfl, le_refl _, ?_⟩
    intro m hm
    cases hm

/-- Helper: the loop produces exactly one cycle trace per outcome, so every
iteration completes and control reaches the next one. -/
theorem runCyclesTrace_length (s : ActuatorState)
    (outs : List RangingOutcome) :
    (runCyclesTrace s outs).2.length = outs.length := by
  induction outs generalizing s with
  | nil => rfl
  | cons o rest ih =>
    simp only [runCyclesTrace, List.length_cons]
    rw [ih]

/-- C9: the loop is productive for every outcome sequence (one completed
cycle per outcome, never halting early), and an unbounded run of failure
outcomes yields exactly that many skipped cycles, each logging the failure,
with the actuator state never touched (`main.rs:98`..`180`). -/
theorem loop_total_and_failure_run (s : ActuatorState)
    (outs : List RangingOutcome) (n : ℕ) (e : ErrorKind) :
    (runCyclesTrace s outs).2.length = outs.length ∧
    runCyclesTrace s (List.replicate n (RangingOutcome.err e))
      = (s, List.replicate n [Event.interCycleDelayMs 200, Event.logError]) := by
  refine ⟨runCyclesTrace_length s outs, ?_⟩
  induction n generalizing s with
  | zero => rfl
  | succ k ih =>
    have hstep : cycleStep s (RangingOutcome.err e)
        = (s, [Event.interCycleDelayMs 200, Event.logError]) := by
      norm_num [cycleStep, unitOf]
    simp only [List.replicate_succ, runCyclesTrace, hstep, ih]

/-- Helper: both servo output lines, once low, stay low across any run of
cycles: a failure cycle leaves them untouched and a successful cycle ends
with both driven low. -/
theorem runCyclesTrace_sg_low (s : ActuatorState)
    (h1 : s.sg1 = false) (h2 : s.sg2 = false)
    (outs : List RangingOutcome) :
    (runCyclesTrace s outs).1.sg1 = false ∧
    (runCyclesTrace s outs).1.sg2 = false := by
  induction outs generalizing s with
  | nil => exact ⟨h1, h2⟩
  | cons o rest ih =>
    simp only [runCyclesTrace]
    apply ih
    · by_cases hh : unitOf o < 0 <;> simp [cycleStep, hh, h1]
    · by_cases hh : unitOf o < 0 <;> simp [cycleStep, hh, h2]

/-- C10: in every successful cycle the servo drive is strictly sequential —
line 1 is asserted, held, driven low and settled for 10 ms before line 2 is
asserted, and line 2 is likewise driven low and settled — and the cycle
ends with both servo lines low; consequently, starting from the initial
state, both servo output lines are low at every cycle boundary
(`main.rs:95`..`96`, `main.rs:132`..`167`). -/
theorem servo_pulses_sequential_lines_low :
    (∀ (s : ActuatorState) (m : Measurement), 0 ≤ m.centimeters →
      (∃ p q : ℕ,
        List.filter isServoEvent (cycleStep s (RangingOutcome.ok m)).2 =
          [Event.sgHigh 1, Event.waitMs p, Event.sgLow 1, Event.waitMs 10,
           Event.sgHigh 2, Event.waitMs q, Event.sgLow 2, Event.waitMs 10]) ∧
      (cycleStep s (RangingOutcome.ok m)).1.sg1 = false ∧
      (cycleStep s (RangingOutcome.ok m)).1.sg2 = false) ∧
    ∀ outs : List RangingOutcome,
      (runCyclesTrace initialState outs).1.sg1 = false ∧
      (runCyclesTrace initialState outs).1.sg2 = false := by
  constructor
  · intro s m h
    have key := filter_servo_cycle s m h
    refine ⟨?_, ?_, ?_⟩
    · rcases Decidable.em (m.centimeters ≤ 20) with h20 | h20
      · exact ⟨2, 1, by rw [key]; simp [h20, servoSeq]⟩
      · exact ⟨1, 2, by rw [key]; simp [h20, servoSeq]⟩
    · simp only [cycleStep, unitOf]
      rw [if_neg (not_lt.mpr h)]
    · simp only [cycleStep, unitOf]
      rw [if_neg (not_lt.mpr h)]
  · exact runCyclesTrace_sg_low initialState rfl rfl

/-- Witness for C10: at distance 10.0 the servo portion of the trace has the
sequential pulse shape, and after a mixed run of cycles both servo lines are
low. -/
theorem servo_pulses_sequential_lines_low_w :
    (0:ℚ) ≤ 10 ∧
    (∃ p q : ℕ,
      List.filter isServoEvent
          (cycleStep initialState (RangingOutcome.ok ⟨10⟩)).2 =
        [Event.sgHigh 1, Event.waitMs p, Event.sgLow 1, Event.waitMs 10,
         Event.sgHigh 2, Event.waitMs q, Event.sgLow 2, Event.waitMs 10]) ∧
    (runCyclesTrace initialState
        [RangingOutcome.ok ⟨10⟩, RangingOutcome.err ErrorKind.NoEcho,
         RangingOutcome.ok ⟨60⟩]).1.sg1 = false ∧
    (runCyclesTrace initialState
        [RangingOutcome.ok ⟨10⟩, RangingOutcome.err ErrorKind.NoEcho,
         RangingOutcome.ok ⟨60⟩]).1.sg2 = false :=
  ⟨by norm_num,
   (servo_pulses_sequential_lines_low.1 initialState ⟨10⟩ (by norm_num)).1,
   (servo_pulses_sequential_lines_low.2
      [RangingOutcome.ok ⟨10⟩, RangingOutcome.err ErrorKind.NoEcho,
       RangingOutcome.ok ⟨60⟩]).1,
   (servo_pulses_sequential_lines_low.2
      [RangingOutcome.ok ⟨10⟩, RangingOutcome.err ErrorKind.NoEcho,
       RangingOutcome.ok ⟨60⟩]).2⟩

/-- Witness for C8: with the echo line never rising, `measure` returns
`NoEcho` within the trigger-pulse-plus-startup-timeout bound. -/
theorem no_echo_timeout_w :
    ((⟨none, none⟩ : HCSR04.EchoSignal).startDelayUs = none ∨
      ∃ sd, (⟨none, none⟩ : HCSR04.EchoSignal).startDelayUs = some sd ∧
        (⟨30000, 25000, 400⟩ : HCSR04.DriverParams).startupTimeoutUs < sd) ∧
    (HCSR04.measureTimed ⟨30000, 25000, 400⟩ ⟨none, none⟩).1
      = RangingOutcome.err ErrorKind.NoEcho ∧
    (HCSR04.measureTimed ⟨30000, 25000, 400⟩ ⟨none, none⟩).2
      ≤ HCSR04.triggerPulseUs + (30000:ℚ) :=
  ⟨Or.inl rfl,
   (no_echo_timeout ⟨30000, 25000, 400⟩ ⟨none, none⟩ (Or.inl rfl)).1,
   (no_echo_timeout ⟨30000, 25000, 400⟩ ⟨none, none⟩ (Or.inl rfl)).2.1⟩
